import Mathlib

/-!
Verification of the LamPyrid transaction orchestration layer.

Shallow embedding of `src/lampyrid/services/transactions.py`,
`src/lampyrid/clients/firefly.py` (query sanitizer and search-query
compiler) and `src/lampyrid/models/lampyrid_models.py` (request DTO
validation).  Strings are modelled as `List Char`; the remote Firefly
client is modelled as an oracle: each create/update/delete call's
outcome is supplied as data, and the orchestration loops are translated
as structurally recursive Lean functions that mirror the Python control
flow statement by statement.
-/

namespace LamPyrid

/-- The backslash character, `Char.ofNat 92`. -/
def backslashChar : Char := Char.ofNat 92

/-- The double-quote character, `Char.ofNat 34`. -/
def dquoteChar : Char := Char.ofNat 34

/-- The single-quote character, `Char.ofNat 39`. -/
def squoteChar : Char := Char.ofNat 39

/-- `value.replace(chr(92), chr(92)*2)`: each backslash becomes two backslashes. -/
def replaceBackslash : List Char → List Char
  | [] => []
  | c :: cs =>
      (if c = backslashChar then [backslashChar, backslashChar] else [c]) ++ replaceBackslash cs

/-- `value.replace(chr(34), chr(92)+chr(34))`: each double quote becomes
backslash plus double quote. -/
def replaceQuote : List Char → List Char
  | [] => []
  | c :: cs =>
      (if c = dquoteChar then [backslashChar, dquoteChar] else [c]) ++ replaceQuote cs

/-- `FireflyClient._sanitize_value` (src/lampyrid/clients/firefly.py:121-140):
escape backslashes, then double quotes, and wrap the escaped result in double
quotes when the original value contains a space, a double quote or a single
quote. -/
def sanitize_value (value : List Char) : List Char :=
  let escaped := replaceQuote (replaceBackslash value)
  if ' ' ∈ value ∨ dquoteChar ∈ value ∨ squoteChar ∈ value then
    dquoteChar :: escaped ++ [dquoteChar]
  else
    escaped

/-- One-pass character-level escaping: a backslash becomes two backslashes, a
double quote becomes backslash plus double quote, every other character is
kept.  Used to relate the two sequential replaces of the source to the
spec's description of the escaping. -/
def escapeChar (c : Char) : List Char :=
  if c = backslashChar then [backslashChar, backslashChar]
  else if c = dquoteChar then [backslashChar, dquoteChar]
  else [c]

/-- One-pass escaping of a whole string. -/
def escapeChars : List Char → List Char
  | [] => []
  | c :: cs => escapeChar c ++ escapeChars cs

/-- A Python `datetime.date`: year, month, day.  Only its ISO rendering is
relevant to the verified code. -/
structure PyDate where
  year : Nat
  month : Nat
  day : Nat
deriving DecidableEq, Repr

/-- Decimal rendering of a natural number zero-padded to at least `w` digits,
as in Python's `date.isoformat` (`%04d`/`%02d`). -/
def padNat (w : Nat) (n : Nat) : List Char :=
  List.replicate (w - (toString n).data.length) '0' ++ (toString n).data

/-- `str(date)` in Python: ISO `YYYY-MM-DD` with zero padding. -/
def dateIso (d : PyDate) : List Char :=
  padNat 4 d.year ++ '-' :: padNat 2 d.month ++ '-' :: padNat 2 d.day

/-- `SearchTransactionsRequest` (src/lampyrid/models/lampyrid_models.py:284-390).
String values are `List Char`; the float amount fields are represented by
their decimal rendering (the code only interpolates them into the query,
never inspects them); `account_id`, `page` and `limit` are Python ints. -/
structure SearchTransactionsRequest where
  query : Option (List Char)
  type : Option (List Char)
  amount_equals : Option (List Char)
  amount_more : Option (List Char)
  amount_less : Option (List Char)
  date_on : Option PyDate
  date_after : Option PyDate
  date_before : Option PyDate
  description_contains : Option (List Char)
  category : Option (List Char)
  budget : Option (List Char)
  account_contains : Option (List Char)
  account_id : Option Int
  page : Option Int := some 1
  limit : Option Int := some 50
deriving Repr

/-- `validate_search_criteria` (lampyrid_models.py:370-390): at least one of
the thirteen search fields must not be `None`. -/
def validate_search_criteria (req : SearchTransactionsRequest) : Bool :=
  [req.query.isSome, req.type.isSome, req.amount_equals.isSome, req.amount_more.isSome,
    req.amount_less.isSome, req.date_on.isSome, req.date_after.isSome, req.date_before.isSome,
    req.description_contains.isSome, req.category.isSome, req.budget.isSome,
    req.account_contains.isSome, req.account_id.isSome].any id

/-- The pydantic field constraints on pagination (lampyrid_models.py:361-368):
`page` has `ge=1`, `limit` has `ge=1, le=500`; `None` passes either. -/
def pagination_ok (req : SearchTransactionsRequest) : Bool :=
  (match req.page with
    | none => true
    | some p => decide (1 ≤ p))
  && (match req.limit with
    | none => true
    | some l => decide (1 ≤ l) && decide (l ≤ 500))

/-- Pydantic construction of a `SearchTransactionsRequest` succeeds iff the
field constraints hold and the model validator accepts. -/
def valid_search_request (req : SearchTransactionsRequest) : Bool :=
  pagination_ok req && validate_search_criteria req

/-- `if req.query: query_parts.append(req.query)` — Python string truthiness:
`None` and the empty string contribute nothing. -/
def queryPart : Option (List Char) → List (List Char)
  | some q => if q.isEmpty then [] else [q]
  | none => []

/-- A clause guarded by `if req.field:` (string truthiness) rendered as
`label` followed by the raw value. -/
def truthyClause (label : List Char) : Option (List Char) → List (List Char)
  | some s => if s.isEmpty then [] else [label ++ s]
  | none => []

/-- A clause guarded by `if req.field:` whose value is passed through
`FireflyClient._sanitize_value`. -/
def truthySanitizedClause (label : List Char) : Option (List Char) → List (List Char)
  | some s => if s.isEmpty then [] else [label ++ sanitize_value s]
  | none => []

/-- A clause guarded by `if req.field is not None:` rendered as `label`
followed by the value's rendering. -/
def someClause (label : List Char) : Option (List Char) → List (List Char)
  | some s => [label ++ s]
  | none => []

/-- A date clause guarded by `if req.field:`; a `date` object is always
truthy, and f-string interpolation renders it as ISO `YYYY-MM-DD`. -/
def dateClause (label : List Char) : Option PyDate → List (List Char)
  | some d => [label ++ dateIso d]
  | none => []

/-- An int clause guarded by `if req.field is not None:`. -/
def intClause (label : List Char) : Option Int → List (List Char)
  | some i => [label ++ (toString i).data]
  | none => []

/-- The `query_parts` list built by `TransactionService.search_transactions`
(src/lampyrid/services/transactions.py:290-334); the identical compiler also
appears in `FireflyClient.search_transactions` (firefly.py:144-186).  Clauses
in source order. -/
def search_query_parts (req : SearchTransactionsRequest) : List (List Char) :=
  queryPart req.query
    ++ truthyClause ("type:").data req.type
    ++ someClause ("amount:").data req.amount_equals
    ++ someClause ("more:").data req.amount_more
    ++ someClause ("less:").data req.amount_less
    ++ dateClause ("date_on:").data req.date_on
    ++ dateClause ("date_after:").data req.date_after
    ++ dateClause ("date_before:").data req.date_before
    ++ truthySanitizedClause ("description_contains:").data req.description_contains
    ++ truthySanitizedClause ("category_is:").data req.category
    ++ truthySanitizedClause ("budget_is:").data req.budget
    ++ truthySanitizedClause ("account_contains:").data req.account_contains
    ++ intClause ("account_id:").data req.account_id

/-- Python `(chr(32)).join(parts)`: interpose a single space. -/
def joinSpace : List (List Char) → List Char
  | [] => []
  | [s] => s
  | s :: rest => s ++ ' ' :: joinSpace rest

/-- `final_query = (chr(32)).join(query_parts)` — the compiled search query
string (transactions.py:336). -/
def search_query (req : SearchTransactionsRequest) : List Char :=
  joinSpace (search_query_parts req)

/-- The slice of `Transaction` (lampyrid_models.py:85-105) that the bulk
orchestration code inspects: `id` is `Optional[str]`.  The remaining fields
(amount, description, accounts, dates) are carried opaquely through the
loops and are irrelevant to the verified control flow; `payload` stands for
them. -/
structure Transaction where
  id : Option (List Char)
  payload : List Char := []
deriving DecidableEq, Repr

/-- The outcome of one `FireflyClient` create (or update) call, as observed
by the orchestration loop: either a parsed `Transaction` result or a raised
exception carrying a message. -/
inductive CallOutcome where
  | ok (t : Transaction)
  | err (msg : List Char)
deriving DecidableEq, Repr

/-- Modelled from the spec: `BulkOperationError` is missing from
src/lampyrid/models/lampyrid_models.py (only its constructions in
services/transactions.py are in src) — "zero-based index into the original
request list (absent for update errors keyed by id instead), optional
transaction id, error message". -/
structure BulkOperationError where
  index : Option Nat
  transaction_id : Option (List Char)
  error : List Char
deriving DecidableEq, Repr

/-- Modelled from the spec: `BulkCreateResult` is missing from
src/lampyrid/models/lampyrid_models.py — "`successful` (ordered list of
produced Transactions), `failed` (ordered list of BulkOperationError),
`total_requested`, `total_succeeded`, `total_failed`". -/
structure BulkCreateResult where
  successful : List Transaction
  failed : List BulkOperationError
  total_requested : Nat
  total_succeeded : Nat
  total_failed : Nat
deriving DecidableEq, Repr

/-- Modelled from the spec: `BulkUpdateResult` is missing from
src/lampyrid/models/lampyrid_models.py — same shape as `BulkCreateResult`. -/
structure BulkUpdateResult where
  successful : List Transaction
  failed : List BulkOperationError
  total_requested : Nat
  total_succeeded : Nat
  total_failed : Nat
deriving DecidableEq, Repr

/-- The values interpolated into the error raised by `_create_bulk_atomic`
(transactions.py:188-194): the message
`Bulk creation failed at index N, rolled back N transactions: CAUSE` plus
the optional ` Rollback failures: [...]` suffix.  Both `N` slots are
`len(created_ids)` in the source; they are kept as separate fields so the
reported numbers can be reasoned about individually. -/
structure AtomicCreateError where
  failedAtIndex : Nat
  rolledBackCount : Nat
  rollbackFailures : List (List Char)
  cause : List Char
deriving DecidableEq, Repr

/-- `if result.id:` (transactions.py:177-178) — Python truthiness on
`Optional[str]`: record the id iff it is a non-`None`, non-empty string. -/
def recordId : Option (List Char) → List (List Char)
  | some s => if s.isEmpty then [] else [s]
  | none => []

/-- The rollback loop of `_create_bulk_atomic` (transactions.py:181-186):
delete every recorded id in creation order; a failing delete (the oracle
`deleteO` returning `some msg`) is collected as `id: msg` and the loop
continues. -/
def rollback_failures (deleteO : List Char → Option (List Char)) :
    List (List Char) → List (List Char)
  | [] => []
  | txnId :: rest =>
      (match deleteO txnId with
        | some msg => [txnId ++ (": ").data ++ msg]
        | none => []) ++ rollback_failures deleteO rest

/-- Result of an atomic bulk create: the compensating delete calls issued
(in order) and either the raised error or the returned `BulkCreateResult`. -/
structure AtomicResult where
  deletes : List (List Char)
  outcome : Except AtomicCreateError BulkCreateResult
deriving Repr

/-- The loop of `_create_bulk_atomic` (transactions.py:164-194).  Each list
element is the client's response to the corresponding create call (the
loop inspects nothing else of the transaction); `created` and `created_ids`
are the accumulators, `total` is `len(transactions)`.  On the first `err`
the remaining calls are never issued; every recorded id is deleted and the
error is raised. -/
def create_bulk_atomic_go (deleteO : List Char → Option (List Char)) (total : Nat)
    (created : List Transaction) (created_ids : List (List Char)) :
    List CallOutcome → AtomicResult
  | [] =>
      { deletes := [],
        outcome := Except.ok
          { successful := created, failed := [], total_requested := total,
            total_succeeded := created.length, total_failed := 0 } }
  | CallOutcome.ok t :: rest =>
      create_bulk_atomic_go deleteO total (created ++ [t]) (created_ids ++ recordId t.id) rest
  | CallOutcome.err e :: _ =>
      { deletes := created_ids,
        outcome := Except.error
          { failedAtIndex := created_ids.length, rolledBackCount := created_ids.length,
            rollbackFailures := rollback_failures deleteO created_ids, cause := e } }

/-- `TransactionService._create_bulk_atomic` (transactions.py:159-202),
with the client's create responses supplied positionally and the delete
endpoint supplied as the oracle `deleteO`. -/
def create_bulk_atomic (deleteO : List Char → Option (List Char))
    (outcomes : List CallOutcome) : AtomicResult :=
  create_bulk_atomic_go deleteO outcomes.length [] [] outcomes

/-- The error raised by `_create_bulk_non_atomic` when every creation
failed: `All N transactions failed to create` (transactions.py:224-225). -/
structure AllFailedCreateError where
  total : Nat
deriving DecidableEq, Repr

/-- The loop of `_create_bulk_non_atomic` (transactions.py:209-222):
successes are appended to `successful`, failures to `failed` as
`BulkOperationError(index=idx, error=str(e))`, and iteration always
continues. -/
def create_bulk_non_atomic_go (idx : Nat) (successful : List Transaction)
    (failed : List BulkOperationError) :
    List CallOutcome → List Transaction × List BulkOperationError
  | [] => (successful, failed)
  | CallOutcome.ok t :: rest =>
      create_bulk_non_atomic_go (idx + 1) (successful ++ [t]) failed rest
  | CallOutcome.err e :: rest =>
      create_bulk_non_atomic_go (idx + 1) successful
        (failed ++ [{ index := some idx, transaction_id := none, error := e }]) rest

/-- `TransactionService._create_bulk_non_atomic` (transactions.py:204-233):
run the loop, then raise iff `len(failed) == len(transactions)`, else return
the partitioned `BulkCreateResult`. -/
def create_bulk_non_atomic (outcomes : List CallOutcome) :
    Except AllFailedCreateError BulkCreateResult :=
  let sf := create_bulk_non_atomic_go 0 [] [] outcomes
  if sf.2.length = outcomes.length then
    Except.error { total := outcomes.length }
  else
    Except.ok
      { successful := sf.1, failed := sf.2, total_requested := outcomes.length,
        total_succeeded := sf.1.length, total_failed := sf.2.length }

/-- One entry of `BulkUpdateTransactionsRequest.updates` paired with the
outcome of its `update_transaction` call: the request's `transaction_id`
plus the client's response. -/
structure UpdateItem where
  transaction_id : List Char
  outcome : CallOutcome
deriving DecidableEq, Repr

/-- The error raised by `bulk_update_transactions` when every update failed:
`All N transaction updates failed` (transactions.py:418-419). -/
structure AllFailedUpdateError where
  total : Nat
deriving DecidableEq, Repr

/-- Outcome of a bulk update: the update calls issued (one per item, in
order — the loop never abandons remaining items) and either the raised
error or the returned `BulkUpdateResult`. -/
structure BulkUpdateOutcome where
  calls : List (List Char)
  result : Except AllFailedUpdateError BulkUpdateResult
deriving Repr

/-- The loop of `bulk_update_transactions` (transactions.py:405-416):
one update call per item; on failure append
`BulkOperationError(index=idx, transaction_id=..., error=str(e))` and
continue.  Returns (calls issued, successful, failed). -/
def bulk_update_go (idx : Nat) (calls : List (List Char)) (successful : List Transaction)
    (failed : List BulkOperationError) :
    List UpdateItem → List (List Char) × List Transaction × List BulkOperationError
  | [] => (calls, successful, failed)
  | item :: rest =>
      match item.outcome with
      | CallOutcome.ok t =>
          bulk_update_go (idx + 1) (calls ++ [item.transaction_id]) (successful ++ [t])
            failed rest
      | CallOutcome.err e =>
          bulk_update_go (idx + 1) (calls ++ [item.transaction_id]) successful
            (failed ++ [BulkOperationError.mk (some idx) (some item.transaction_id) e]) rest

/-- `TransactionService.bulk_update_transactions` (transactions.py:385-427):
run the loop, raise iff `len(failed) == len(req.updates)`, else return the
partitioned `BulkUpdateResult`. -/
def bulk_update_transactions (items : List UpdateItem) : BulkUpdateOutcome :=
  let csf := bulk_update_go 0 [] [] [] items
  { calls := csf.1,
    result :=
      if csf.2.2.length = items.length then
        Except.error { total := items.length }
      else
        Except.ok
          { successful := csf.2.1, failed := csf.2.2, total_requested := items.length,
            total_succeeded := csf.2.1.length, total_failed := csf.2.2.length } }

/-- `CreateBulkTransactionsRequest` (lampyrid_models.py:529-537) — the
transaction list (each element represented by the client's response to its
create call, the only part the orchestration inspects) plus the `atomic`
flag.  The list bounds (1-100) come from the src model's
`min_length`/`max_length`; the `atomic` field is modelled from the spec
("boolean `atomic` flag (default true)") because it is absent from the src
model even though the service and the test fixtures use it. -/
structure CreateBulkTransactionsRequest where
  transactions : List CallOutcome
  atomic : Bool := true
deriving Repr

/-- Pydantic construction of `CreateBulkTransactionsRequest` succeeds iff
the list length is within `min_length=1`/`max_length=100`. -/
def valid_create_bulk_request (req : CreateBulkTransactionsRequest) : Bool :=
  decide (1 ≤ req.transactions.length) && decide (req.transactions.length ≤ 100)

/-- The error raised by `create_bulk_transactions`, from either path. -/
inductive BulkCreateError where
  | atomicFailure (e : AtomicCreateError)
  | allFailed (e : AllFailedCreateError)
deriving DecidableEq, Repr

/-- Outcome of `create_bulk_transactions`: compensating deletes issued (only
ever non-empty on the atomic path) and the raised error or returned result. -/
structure BulkCreateOutcome where
  deletes : List (List Char)
  result : Except BulkCreateError BulkCreateResult
deriving Repr

/-- `TransactionService.create_bulk_transactions` (transactions.py:134-157):
dispatch on `req.atomic`. -/
def create_bulk_transactions (deleteO : List Char → Option (List Char))
    (req : CreateBulkTransactionsRequest) : BulkCreateOutcome :=
  if req.atomic then
    let a := create_bulk_atomic deleteO req.transactions
    { deletes := a.deletes,
      result :=
        match a.outcome with
        | Except.ok r => Except.ok r
        | Except.error e => Except.error (BulkCreateError.atomicFailure e) }
  else
    { deletes := [],
      result :=
        match create_bulk_non_atomic req.transactions with
        | Except.ok r => Except.ok r
        | Except.error e => Except.error (BulkCreateError.allFailed e) }

/-! ### Declarative characterizations of the loops -/

/-- The transactions produced by the successful calls, in order. -/
def ok_results : List CallOutcome → List Transaction
  | [] => []
  | CallOutcome.ok t :: rest => t :: ok_results rest
  | CallOutcome.err _ :: rest => ok_results rest

/-- The `BulkOperationError` entries of a non-atomic bulk create, indexed
from `idx`. -/
def err_entries (idx : Nat) : List CallOutcome → List BulkOperationError
  | [] => []
  | CallOutcome.ok _ :: rest => err_entries (idx + 1) rest
  | CallOutcome.err e :: rest =>
      { index := some idx, transaction_id := none, error := e } :: err_entries (idx + 1) rest

/-- The transactions produced by the successful update calls, in order. -/
def update_ok_results : List UpdateItem → List Transaction
  | [] => []
  | item :: rest =>
      match item.outcome with
      | CallOutcome.ok t => t :: update_ok_results rest
      | CallOutcome.err _ => update_ok_results rest

/-- The `BulkOperationError` entries of a bulk update, indexed from `idx`. -/
def update_err_entries (idx : Nat) : List UpdateItem → List BulkOperationError
  | [] => []
  | item :: rest =>
      match item.outcome with
      | CallOutcome.ok _ => update_err_entries (idx + 1) rest
      | CallOutcome.err e =>
          { index := some idx, transaction_id := some item.transaction_id, error := e }
            :: update_err_entries (idx + 1) rest

/-- The ids recorded by the atomic loop for a list of created transactions:
one entry per transaction whose `id` is a non-`None`, non-empty string. -/
def transaction_ids : List Transaction → List (List Char)
  | [] => []
  | t :: rest => recordId t.id ++ transaction_ids rest

theorem replaceQuote_append (a b : List Char) :
    replaceQuote (a ++ b) = replaceQuote a ++ replaceQuote b := by
  induction a with
  | nil => rfl
  | cons c cs ih => simp [replaceQuote, ih]

theorem escape_as_two_passes (v : List Char) :
    replaceQuote (replaceBackslash v) = escapeChars v := by
  induction v with
  | nil => rfl
  | cons c cs ih =>
      by_cases hb : c = backslashChar
      · subst hb
        have h1 : replaceBackslash (backslashChar :: cs) =
            [backslashChar, backslashChar] ++ replaceBackslash cs := by
          simp [replaceBackslash]
        have h2 : escapeChars (backslashChar :: cs) =
            [backslashChar, backslashChar] ++ escapeChars cs := by
          simp [escapeChars, escapeChar]
        have h3 : replaceQuote [backslashChar, backslashChar] =
            [backslashChar, backslashChar] := by decide
        rw [h1, replaceQuote_append, ih, h2, h3]
      · by_cases hq : c = dquoteChar
        · subst hq
          have h1 : replaceBackslash (dquoteChar :: cs) =
              [dquoteChar] ++ replaceBackslash cs := by
            simp [replaceBackslash, hb]
          have h2 : escapeChars (dquoteChar :: cs) =
              [backslashChar, dquoteChar] ++ escapeChars cs := by
            simp [escapeChars, escapeChar, hb]
          have h3 : replaceQuote [dquoteChar] = [backslashChar, dquoteChar] := by decide
          rw [h1, replaceQuote_append, ih, h2, h3]
        · have h1 : replaceBackslash (c :: cs) = [c] ++ replaceBackslash cs := by
            simp [replaceBackslash, hb]
          have h2 : escapeChars (c :: cs) = [c] ++ escapeChars cs := by
            simp [escapeChars, escapeChar, hb, hq]
          have h3 : replaceQuote [c] = [c] := by
            simp [replaceQuote, hq]
          rw [h1, replaceQuote_append, ih, h2, h3]

theorem create_bulk_non_atomic_go_spec (l : List CallOutcome) :
    ∀ idx s f, create_bulk_non_atomic_go idx s f l = (s ++ ok_results l, f ++ err_entries idx l) := by
  induction l with
  | nil => intro idx s f; simp [create_bulk_non_atomic_go, ok_results, err_entries]
  | cons o rest ih =>
      intro idx s f
      cases o with
      | ok t => simp [create_bulk_non_atomic_go, ok_results, err_entries, ih]
      | err e => simp [create_bulk_non_atomic_go, ok_results, err_entries, ih]

theorem ok_err_length (l : List CallOutcome) :
    ∀ k, (ok_results l).length + (err_entries k l).length = l.length := by
  induction l with
  | nil => intro k; rfl
  | cons o rest ih =>
      intro k
      cases o with
      | ok t =>
          have := ih (k + 1)
          simp only [ok_results, err_entries, List.length_cons]
          omega
      | err e =>
          have := ih (k + 1)
          simp only [ok_results, err_entries, List.length_cons]
          omega

theorem mem_err_entries (l : List CallOutcome) :
    ∀ k e, e ∈ err_entries k l ↔
      ∃ j m, l[j]? = some (CallOutcome.err m) ∧
        e = { index := some (k + j), transaction_id := none, error := m } := by
  induction l with
  | nil =>
      intro k e
      simp [err_entries]
  | cons o rest ih =>
      intro k e
      cases o with
      | ok t =>
          rw [show err_entries k (CallOutcome.ok t :: rest) = err_entries (k + 1) rest from rfl,
            ih]
          constructor
          · rintro ⟨j, m, hj, he⟩
            refine ⟨j + 1, m, by simpa using hj, ?_⟩
            have harith : k + (j + 1) = (k + 1) + j := by omega
            rw [harith]
            exact he
          · rintro ⟨j, m, hj, he⟩
            cases j with
            | zero => simp at hj
            | succ j =>
                refine ⟨j, m, by simpa using hj, ?_⟩
                have harith : (k + 1) + j = k + (j + 1) := by omega
                rw [harith]
                exact he
      | err e0 =>
          rw [show err_entries k (CallOutcome.err e0 :: rest) =
            { index := some k, transaction_id := none, error := e0 } ::
              err_entries (k + 1) rest from rfl]
          simp only [List.mem_cons, ih]
          constructor
          · rintro (he | ⟨j, m, hj, he⟩)
            · exact ⟨0, e0, by simp, by simpa using he⟩
            · refine ⟨j + 1, m, by simpa using hj, ?_⟩
              have harith : k + (j + 1) = (k + 1) + j := by omega
              rw [harith]
              exact he
          · rintro ⟨j, m, hj, he⟩
            cases j with
            | zero =>
                left
                simp at hj
                simpa [hj] using he
            | succ j =>
                right
                refine ⟨j, m, by simpa using hj, ?_⟩
                have harith : (k + 1) + j = k + (j + 1) := by omega
                rw [harith]
                exact he

theorem bulk_update_go_spec (items : List UpdateItem) :
    ∀ idx cs s f, bulk_update_go idx cs s f items =
      (cs ++ items.map UpdateItem.transaction_id,
       s ++ update_ok_results items, f ++ update_err_entries idx items) := by
  induction items with
  | nil => intro idx cs s f; simp [bulk_update_go, update_ok_results, update_err_entries]
  | cons item rest ih =>
      intro idx cs s f
      cases h : item.outcome with
      | ok t =>
          simp [bulk_update_go, update_ok_results, update_err_entries, h, ih]
      | err e =>
          simp [bulk_update_go, update_ok_results, update_err_entries, h, ih]

theorem update_ok_err_length (items : List UpdateItem) :
    ∀ k, (update_ok_results items).length + (update_err_entries k items).length =
      items.length := by
  induction items with
  | nil => intro k; rfl
  | cons item rest ih =>
      intro k
      cases h : item.outcome with
      | ok t =>
          have := ih (k + 1)
          simp only [update_ok_results, update_err_entries, h, List.length_cons]
          omega
      | err e =>
          have := ih (k + 1)
          simp only [update_ok_results, update_err_entries, h, List.length_cons]
          omega

theorem update_err_entries_length_le (items : List UpdateItem) (k : Nat) :
    (update_err_entries k items).length ≤ items.length := by
  have := update_ok_err_length items k
  omega

theorem update_err_full_iff (items : List UpdateItem) :
    ∀ k, (update_err_entries k items).length = items.length ↔
      ∀ item ∈ items, ∃ m, item.outcome = CallOutcome.err m := by
  induction items with
  | nil => intro k; simp [update_err_entries]
  | cons item rest ih =>
      intro k
      cases h : item.outcome with
      | ok t =>
          have hle := update_err_entries_length_le rest (k + 1)
          constructor
          · intro hlen
            exfalso
            simp only [update_err_entries, h, List.length_cons] at hlen
            omega
          · intro hall
            exfalso
            obtain ⟨m, hm⟩ := hall item (List.mem_cons_self item rest)
            rw [h] at hm
            cases hm
      | err m =>
          constructor
          · intro hlen
            intro it hit
            rcases List.mem_cons.mp hit with hEq | hmem
            · subst hEq
              exact ⟨_, h⟩
            · have hrest : (update_err_entries (k + 1) rest).length = rest.length := by
                simp only [update_err_entries, h, List.length_cons] at hlen
                omega
              exact ((ih (k + 1)).mp hrest) it hmem
          · intro hall
            have hrest : (update_err_entries (k + 1) rest).length = rest.length :=
              (ih (k + 1)).mpr (fun it hit => hall it (List.mem_cons_of_mem item hit))
            simp only [update_err_entries, h, List.length_cons, hrest]

theorem mem_update_err_entries_fields (items : List UpdateItem) :
    ∀ k, ∀ e ∈ update_err_entries k items,
      (∃ j, e.index = some j) ∧ ∃ s, e.transaction_id = some s := by
  induction items with
  | nil => intro k e he; simp [update_err_entries] at he
  | cons item rest ih =>
      intro k e he
      cases h : item.outcome with
      | ok t =>
          rw [show update_err_entries k (item :: rest) = update_err_entries (k + 1) rest by
            simp [update_err_entries, h]] at he
          exact ih (k + 1) e he
      | err m =>
          rw [show update_err_entries k (item :: rest) =
            { index := some k, transaction_id := some item.transaction_id, error := m } ::
              update_err_entries (k + 1) rest by simp [update_err_entries, h]] at he
          rcases List.mem_cons.mp he with hEq | hmem
          · subst hEq
            exact ⟨⟨k, rfl⟩, ⟨item.transaction_id, rfl⟩⟩
          · exact ih (k + 1) e hmem

theorem atomic_go_map_ok (ts : List Transaction) :
    ∀ dO total created ids,
      create_bulk_atomic_go dO total created ids (ts.map CallOutcome.ok) =
        { deletes := [],
          outcome := Except.ok
            { successful := created ++ ts, failed := [], total_requested := total,
              total_succeeded := (created ++ ts).length, total_failed := 0 } } := by
  induction ts with
  | nil => intro dO total created ids; simp [create_bulk_atomic_go]
  | cons t rest ih =>
      intro dO total created ids
      rw [List.map_cons,
        show create_bulk_atomic_go dO total created ids
          (CallOutcome.ok t :: rest.map CallOutcome.ok) =
          create_bulk_atomic_go dO total (created ++ [t]) (ids ++ recordId t.id)
            (rest.map CallOutcome.ok) from rfl,
        ih]
      simp

theorem atomic_go_err (ts : List Transaction) :
    ∀ dO total created ids e rest,
      create_bulk_atomic_go dO total created ids
        (ts.map CallOutcome.ok ++ CallOutcome.err e :: rest) =
        { deletes := ids ++ transaction_ids ts,
          outcome := Except.error
            { failedAtIndex := (ids ++ transaction_ids ts).length,
              rolledBackCount := (ids ++ transaction_ids ts).length,
              rollbackFailures := rollback_failures dO (ids ++ transaction_ids ts),
              cause := e } } := by
  induction ts with
  | nil =>
      intro dO total created ids e rest
      simp [create_bulk_atomic_go, transaction_ids]
  | cons t rest' ih =>
      intro dO total created ids e rest
      rw [List.map_cons, List.cons_append,
        show create_bulk_atomic_go dO total created ids
          (CallOutcome.ok t :: (rest'.map CallOutcome.ok ++ CallOutcome.err e :: rest)) =
          create_bulk_atomic_go dO total (created ++ [t]) (ids ++ recordId t.id)
            (rest'.map CallOutcome.ok ++ CallOutcome.err e :: rest) from rfl,
        ih]
      simp [transaction_ids]

theorem atomic_go_ok_inv (l : List CallOutcome) :
    ∀ dO total created ids r,
      (create_bulk_atomic_go dO total created ids l).outcome = Except.ok r →
        r.successful = created ++ ok_results l ∧ r.failed = [] ∧
        r.total_requested = total ∧ r.total_succeeded = r.successful.length ∧
        r.total_failed = 0 ∧ (ok_results l).length = l.length := by
  induction l with
  | nil =>
      intro dO total created ids r hr
      simp [create_bulk_atomic_go] at hr
      subst hr
      simp [ok_results]
  | cons o rest ih =>
      intro dO total created ids r hr
      cases o with
      | ok t =>
          rw [show create_bulk_atomic_go dO total created ids (CallOutcome.ok t :: rest) =
            create_bulk_atomic_go dO total (created ++ [t]) (ids ++ recordId t.id) rest
            from rfl] at hr
          obtain ⟨h1, h2, h3, h4, h5, h6⟩ := ih dO total (created ++ [t]) (ids ++ recordId t.id) r hr
          refine ⟨?_, h2, h3, h4, h5, ?_⟩
          · rw [h1]; simp [ok_results]
          · simp [ok_results, h6]
      | err e =>
          simp [create_bulk_atomic_go] at hr

theorem mem_rollback_failures (dO : List Char → Option (List Char)) (ids : List (List Char)) :
    ∀ x, x ∈ rollback_failures dO ids ↔
      ∃ i ∈ ids, ∃ m, dO i = some m ∧ x = i ++ (": ").data ++ m := by
  induction ids with
  | nil => intro x; simp [rollback_failures]
  | cons i rest ih =>
      intro x
      cases h : dO i with
      | none =>
          rw [show rollback_failures dO (i :: rest) = rollback_failures dO rest by
            simp [rollback_failures, h]]
          rw [ih]
          constructor
          · rintro ⟨i', hi', m, hm, hx⟩
            exact ⟨i', List.mem_cons_of_mem i hi', m, hm, hx⟩
          · rintro ⟨i', hi', m, hm, hx⟩
            rcases List.mem_cons.mp hi' with hEq | hmem
            · subst hEq; rw [h] at hm; cases hm
            · exact ⟨i', hmem, m, hm, hx⟩
      | some msg =>
          rw [show rollback_failures dO (i :: rest) =
            (i ++ (": ").data ++ msg) :: rollback_failures dO rest by
            simp [rollback_failures, h]]
          simp only [List.mem_cons, ih]
          constructor
          · rintro (hx | ⟨i', hi', m, hm, hx⟩)
            · exact ⟨i, Or.inl rfl, msg, h, hx⟩
            · exact ⟨i', Or.inr hi', m, hm, hx⟩
          · rintro ⟨i', hi', m, hm, hx⟩
            rcases hi' with hEq | hmem
            · subst hEq
              rw [h] at hm
              cases hm
              exact Or.inl hx
            · exact Or.inr ⟨i', hmem, m, hm, hx⟩

theorem mem_transaction_ids (ts : List Transaction) :
    ∀ s ∈ transaction_ids ts, ∃ t ∈ ts, t.id = some s ∧ s.isEmpty = false := by
  induction ts with
  | nil => intro s hs; simp [transaction_ids] at hs
  | cons t rest ih =>
      intro s hs
      rw [show transaction_ids (t :: rest) = recordId t.id ++ transaction_ids rest from rfl] at hs
      rcases List.mem_append.mp hs with hmem | hmem
      · cases hid : t.id with
        | none => rw [hid] at hmem; simp [recordId] at hmem
        | some v =>
            rw [hid] at hmem
            by_cases hv : v.isEmpty
            · simp [recordId, hv] at hmem
            · rw [show recordId (some v) = [v] by simp [recordId, hv]] at hmem
              rw [List.mem_singleton] at hmem
              subst hmem
              exact ⟨t, List.mem_cons_self t rest, hid, by simpa using hv⟩
      · obtain ⟨t', ht', hid, hne⟩ := ih s hmem
        exact ⟨t', List.mem_cons_of_mem t ht', hid, hne⟩

theorem transaction_ids_length_le (ts : List Transaction) :
    (transaction_ids ts).length ≤ ts.length := by
  induction ts with
  | nil => simp [transaction_ids]
  | cons t rest ih =>
      have hrec : (recordId t.id).length ≤ 1 := by
        cases hid : t.id with
        | none => simp [recordId]
        | some v =>
            by_cases hv : v.isEmpty <;> simp [recordId, hv]
      simp only [transaction_ids, List.length_append, List.length_cons]
      omega

theorem transaction_ids_length_eq (ts : List Transaction) :
    (transaction_ids ts).length = ts.length →
      ∀ t ∈ ts, ∃ s, t.id = some s ∧ s.isEmpty = false := by
  induction ts with
  | nil => intro _ t ht; cases ht
  | cons t rest ih =>
      intro hlen t' ht'
      have hle : (transaction_ids rest).length ≤ rest.length := transaction_ids_length_le rest
      have hrec : (recordId t.id).length ≤ 1 := by
        cases hid : t.id with
        | none => simp [recordId]
        | some v => by_cases hv : v.isEmpty <;> simp [recordId, hv]
      simp only [transaction_ids, List.length_append, List.length_cons] at hlen
      have hrec1 : (recordId t.id).length = 1 := by omega
      have hrest : (transaction_ids rest).length = rest.length := by omega
      rcases List.mem_cons.mp ht' with hEq | hmem
      · subst hEq
        cases hid : t'.id with
        | none => rw [hid] at hrec1; simp [recordId] at hrec1
        | some v =>
            rw [hid] at hrec1
            by_cases hv : v.isEmpty
            · rw [show recordId (some v) = [] by simp [recordId, hv]] at hrec1
              cases hrec1
            · exact ⟨v, rfl, by simpa using hv⟩
      · exact ih hrest t' hmem

theorem transaction_ids_of_all_some (ts : List Transaction) :
    (∀ t ∈ ts, ∃ s, t.id = some s ∧ s.isEmpty = false) →
      transaction_ids ts = ts.map (fun t => t.id.getD []) := by
  induction ts with
  | nil => intro _; rfl
  | cons t rest ih =>
      intro hall
      obtain ⟨s, hid, hne⟩ := hall t (List.mem_cons_self t rest)
      have hrest := ih (fun t' ht' => hall t' (List.mem_cons_of_mem t ht'))
      simp only [transaction_ids, List.map_cons, hrest, hid]
      rw [show recordId (some s) = [s] by simp [recordId, hne]]
      simp

/-! ### Claim theorems -/

/-- C2: `sanitize_value` first replaces every backslash with two backslashes,
then every double quote with backslash-plus-double-quote (together: the
one-pass `escapeChars`), and wraps the escaped result in double quotes iff
the original value contains a space, a double quote or a single quote.
The four example equalities of spec section 8 hold: identity on
`groceries`, quoting of `hello world`, escaping plus quoting of
`say "hi"`, and doubling of the backslash in `a\b`. -/
theorem claim_C2 :
    (∀ v : List Char,
      sanitize_value v =
        if ' ' ∈ v ∨ dquoteChar ∈ v ∨ squoteChar ∈ v then
          dquoteChar :: escapeChars v ++ [dquoteChar]
        else
          escapeChars v)
    ∧ sanitize_value ("groceries").data = ("groceries").data
    ∧ sanitize_value ("hello world").data =
        dquoteChar :: ("hello world").data ++ [dquoteChar]
    ∧ sanitize_value (("say ").data ++ dquoteChar :: ("hi").data ++ [dquoteChar]) =
        dquoteChar :: (("say ").data ++ backslashChar :: dquoteChar :: ("hi").data
          ++ [backslashChar, dquoteChar]) ++ [dquoteChar]
    ∧ sanitize_value (("a").data ++ backslashChar :: ("b").data) =
        ("a").data ++ backslashChar :: backslashChar :: ("b").data := by
  refine ⟨?_, by decide, by decide, by decide, by decide⟩
  intro v
  simp only [sanitize_value]
  rw [escape_as_two_passes]

theorem validate_search_criteria_iff (req : SearchTransactionsRequest) :
    validate_search_criteria req = true ↔
      (req.query.isSome ∨ req.type.isSome ∨ req.amount_equals.isSome ∨
        req.amount_more.isSome ∨ req.amount_less.isSome ∨ req.date_on.isSome ∨
        req.date_after.isSome ∨ req.date_before.isSome ∨
        req.description_contains.isSome ∨ req.category.isSome ∨ req.budget.isSome ∨
        req.account_contains.isSome ∨ req.account_id.isSome) := by
  simp only [validate_search_criteria, List.any_cons, List.any_nil, id_eq,
    Bool.or_eq_true, Bool.false_eq_true, or_false]

theorem pagination_ok_iff (req : SearchTransactionsRequest) :
    pagination_ok req = true ↔
      ((∀ p, req.page = some p → 1 ≤ p) ∧ (∀ l, req.limit = some l → 1 ≤ l ∧ l ≤ 500)) := by
  cases hpg : req.page with
  | none =>
      cases hlm : req.limit with
      | none => simp [pagination_ok, hpg, hlm]
      | some l => simp [pagination_ok, hpg, hlm]
  | some p =>
      cases hlm : req.limit with
      | none => simp [pagination_ok, hpg, hlm]
      | some l => simp [pagination_ok, hpg, hlm, and_assoc]

/-- C7: constructing a `SearchTransactionsRequest` succeeds iff at least one
of the thirteen filter fields (raw query or structured) is present
(`validate_search_criteria` rejects when all are `None`, before any network
call is made) and pagination satisfies `page >= 1` and `1 <= limit <= 500`. -/
theorem claim_C7 :
    ∀ req : SearchTransactionsRequest,
      valid_search_request req = true ↔
        ((req.query.isSome ∨ req.type.isSome ∨ req.amount_equals.isSome ∨
          req.amount_more.isSome ∨ req.amount_less.isSome ∨ req.date_on.isSome ∨
          req.date_after.isSome ∨ req.date_before.isSome ∨
          req.description_contains.isSome ∨ req.category.isSome ∨ req.budget.isSome ∨
          req.account_contains.isSome ∨ req.account_id.isSome)
         ∧ (∀ p, req.page = some p → 1 ≤ p)
         ∧ (∀ l, req.limit = some l → 1 ≤ l ∧ l ≤ 500)) := by
  intro req
  rw [valid_search_request, Bool.and_eq_true, validate_search_criteria_iff,
    pagination_ok_iff]
  tauto

theorem isEmpty_false_of_ne_nil {l : List Char} (h : l ≠ []) : l.isEmpty = false := by
  cases l with
  | nil => exact absurd rfl h
  | cons a as => rfl

/-- C3: the compiled search query is built from the fields in the fixed
source order — raw query, `type:`, `amount:`, `more:`, `less:`, `date_on:`,
`date_after:`, `date_before:`, `description_contains:`, `category_is:`,
`budget_is:`, `account_contains:`, `account_id:` — joined by single spaces;
a fully-populated request yields all thirteen clauses in that order, with
exactly the four free-text values sanitized and the raw query and
numeric/id values passed through; absent fields contribute nothing (a
query-only request compiles to the raw query alone, an all-empty request to
the empty string); dates render as ISO `YYYY-MM-DD`. -/
theorem claim_C3 :
    (∀ (q t ae am al : List Char) (d1 d2 d3 : PyDate) (dc c b ac : List Char) (aid : Int)
        (pg lm : Option Int),
      q ≠ [] → t ≠ [] → dc ≠ [] → c ≠ [] → b ≠ [] → ac ≠ [] →
      search_query ⟨some q, some t, some ae, some am, some al, some d1, some d2, some d3,
        some dc, some c, some b, some ac, some aid, pg, lm⟩ =
        joinSpace [q,
          ("type:").data ++ t,
          ("amount:").data ++ ae,
          ("more:").data ++ am,
          ("less:").data ++ al,
          ("date_on:").data ++ dateIso d1,
          ("date_after:").data ++ dateIso d2,
          ("date_before:").data ++ dateIso d3,
          ("description_contains:").data ++ sanitize_value dc,
          ("category_is:").data ++ sanitize_value c,
          ("budget_is:").data ++ sanitize_value b,
          ("account_contains:").data ++ sanitize_value ac,
          ("account_id:").data ++ (toString aid).data])
    ∧ (∀ q : List Char, q ≠ [] → ∀ pg lm : Option Int,
        search_query ⟨some q, none, none, none, none, none, none, none, none, none, none,
          none, none, pg, lm⟩ = q)
    ∧ (∀ pg lm : Option Int,
        search_query ⟨none, none, none, none, none, none, none, none, none, none, none,
          none, none, pg, lm⟩ = [])
    ∧ dateIso ⟨2024, 1, 15⟩ = ("2024-01-15").data := by
  refine ⟨?_, ?_, ?_, by decide⟩
  · intro q t ae am al d1 d2 d3 dc c b ac aid pg lm hq ht hdc hc hb hac
    simp only [search_query, search_query_parts, queryPart, truthyClause, someClause,
      dateClause, truthySanitizedClause, intClause,
      isEmpty_false_of_ne_nil hq, isEmpty_false_of_ne_nil ht, isEmpty_false_of_ne_nil hdc,
      isEmpty_false_of_ne_nil hc, isEmpty_false_of_ne_nil hb, isEmpty_false_of_ne_nil hac,
      Bool.false_eq_true, if_false]
    rfl
  · intro q hq pg lm
    simp only [search_query, search_query_parts, queryPart, truthyClause, someClause,
      dateClause, truthySanitizedClause, intClause, isEmpty_false_of_ne_nil hq,
      Bool.false_eq_true, if_false]
    rfl
  · intro pg lm
    rfl

/-- Witness for C3 at a concrete fully-populated request and a concrete
query-only request. -/
theorem claim_C3_witness :
    (("grocery").data ≠ ([] : List Char) ∧ ("withdrawal").data ≠ ([] : List Char)
      ∧ ("milk tea").data ≠ ([] : List Char) ∧ ("Food").data ≠ ([] : List Char)
      ∧ ("Dining").data ≠ ([] : List Char) ∧ ("check").data ≠ ([] : List Char))
    ∧ search_query ⟨some ("grocery").data, some ("withdrawal").data, some ("5.5").data,
        some ("1").data, some ("9").data, some ⟨2024, 1, 15⟩, some ⟨2024, 2, 1⟩,
        some ⟨2024, 3, 2⟩, some ("milk tea").data, some ("Food").data, some ("Dining").data,
        some ("check").data, some (7 : Int), some 1, some 50⟩ =
        joinSpace [("grocery").data,
          ("type:").data ++ ("withdrawal").data,
          ("amount:").data ++ ("5.5").data,
          ("more:").data ++ ("1").data,
          ("less:").data ++ ("9").data,
          ("date_on:").data ++ dateIso ⟨2024, 1, 15⟩,
          ("date_after:").data ++ dateIso ⟨2024, 2, 1⟩,
          ("date_before:").data ++ dateIso ⟨2024, 3, 2⟩,
          ("description_contains:").data ++ sanitize_value ("milk tea").data,
          ("category_is:").data ++ sanitize_value ("Food").data,
          ("budget_is:").data ++ sanitize_value ("Dining").data,
          ("account_contains:").data ++ sanitize_value ("check").data,
          ("account_id:").data ++ (toString (7 : Int)).data]
    ∧ search_query ⟨some ("grocery").data, none, none, none, none, none, none, none, none,
        none, none, none, none, some 1, some 50⟩ = ("grocery").data := by
  refine ⟨⟨by decide, by decide, by decide, by decide, by decide, by decide⟩, ?_, ?_⟩
  · exact claim_C3.1 _ _ _ _ _ _ _ _ _ _ _ _ _ _ _
      (by decide) (by decide) (by decide) (by decide) (by decide) (by decide)
  · exact claim_C3.2.1 _ (by decide) _ _

/-- C1 counterexample: an atomic bulk create of two transactions whose first
create failure occurs at position 1, where the transaction created at
position 0 came back with a null id.  The claim requires exactly 1
compensating delete and an error reporting 1 rolled back; the code issues 0
deletes and reports index 0 / 0 rolled back. -/
theorem claim_C1_counterexample :
    (create_bulk_atomic (fun _ => none)
      [CallOutcome.ok { id := none }, CallOutcome.err ("boom").data]).deletes = []
    ∧ (create_bulk_atomic (fun _ => none)
      [CallOutcome.ok { id := none }, CallOutcome.err ("boom").data]).outcome =
        Except.error (AtomicCreateError.mk 0 0 [] (("boom").data))
    ∧ (create_bulk_atomic (fun _ => none)
      [CallOutcome.ok { id := none }, CallOutcome.err ("boom").data]).deletes.length ≠ 1 := by
  exact ⟨rfl, rfl, by decide⟩

/-- C1 (amended): for an atomic bulk create whose first create failure
occurs at position `i = ts.length`, *provided every transaction created
before the failure carried a non-null, non-empty id*, exactly `i`
compensating deletes are issued, one per created transaction in ascending
creation order; a failing delete does not abort the rollback (the failures
are collected, one `id: msg` entry per failing delete, as the membership
characterization states); the raised error reports `i` rolled back and
carries the original create error as cause.  On full success the result
has an empty `failed` list and `total_failed = 0`. -/
theorem claim_C1 :
    (∀ (dO : List Char → Option (List Char)) (ts : List Transaction)
        (e : List Char) (rest : List CallOutcome),
      (∀ t ∈ ts, ∃ s, t.id = some s ∧ s.isEmpty = false) →
      (create_bulk_atomic dO (ts.map CallOutcome.ok ++ CallOutcome.err e :: rest)).deletes =
          ts.map (fun t => t.id.getD [])
        ∧ (create_bulk_atomic dO
            (ts.map CallOutcome.ok ++ CallOutcome.err e :: rest)).deletes.length = ts.length
        ∧ (create_bulk_atomic dO
            (ts.map CallOutcome.ok ++ CallOutcome.err e :: rest)).outcome =
            Except.error
              { failedAtIndex := ts.length, rolledBackCount := ts.length,
                rollbackFailures :=
                  rollback_failures dO (ts.map (fun t => t.id.getD [])),
                cause := e }
        ∧ (∀ x, x ∈ rollback_failures dO (ts.map (fun t => t.id.getD [])) ↔
            ∃ i ∈ ts.map (fun t => t.id.getD []), ∃ m, dO i = some m ∧
              x = i ++ (": ").data ++ m))
    ∧ (∀ (dO : List Char → Option (List Char)) (ts : List Transaction),
        create_bulk_atomic dO (ts.map CallOutcome.ok) =
          { deletes := [],
            outcome := Except.ok
              { successful := ts, failed := [], total_requested := ts.length,
                total_succeeded := ts.length, total_failed := 0 } }) := by
  constructor
  · intro dO ts e rest hall
    have hids := transaction_ids_of_all_some ts hall
    have hlen : (transaction_ids ts).length = ts.length := by
      rw [hids, List.length_map]
    have hgo := atomic_go_err ts dO
      (ts.map CallOutcome.ok ++ CallOutcome.err e :: rest).length [] [] e rest
    rw [show create_bulk_atomic dO (ts.map CallOutcome.ok ++ CallOutcome.err e :: rest) =
      create_bulk_atomic_go dO (ts.map CallOutcome.ok ++ CallOutcome.err e :: rest).length
        [] [] (ts.map CallOutcome.ok ++ CallOutcome.err e :: rest) from rfl, hgo]
    refine ⟨by simpa using hids, by simpa using hlen, ?_, ?_⟩
    · simp only [List.nil_append]
      rw [hids, List.length_map]
    · intro x
      exact mem_rollback_failures dO (ts.map (fun t => t.id.getD [])) x
  · intro dO ts
    have hgo := atomic_go_map_ok ts dO (ts.map CallOutcome.ok).length [] []
    rw [show create_bulk_atomic dO (ts.map CallOutcome.ok) =
      create_bulk_atomic_go dO (ts.map CallOutcome.ok).length [] []
        (ts.map CallOutcome.ok) from rfl, hgo]
    simp

/-- Witness for C1 at a concrete input: one created transaction with id
`11`, then a failing create; the delete oracle fails, so the rollback
failure is collected and the loop still reports one rollback. -/
theorem claim_C1_witness :
    (∀ t ∈ [Transaction.mk (some ("11").data) []], ∃ s, t.id = some s ∧ s.isEmpty = false)
    ∧ ((create_bulk_atomic (fun _ => some ("dfail").data)
          ([Transaction.mk (some ("11").data) []].map CallOutcome.ok
            ++ CallOutcome.err ("boom").data :: [])).deletes =
        [Transaction.mk (some ("11").data) []].map (fun t => t.id.getD [])
      ∧ (create_bulk_atomic (fun _ => some ("dfail").data)
          ([Transaction.mk (some ("11").data) []].map CallOutcome.ok
            ++ CallOutcome.err ("boom").data :: [])).deletes.length = 1
      ∧ (create_bulk_atomic (fun _ => some ("dfail").data)
          ([Transaction.mk (some ("11").data) []].map CallOutcome.ok
            ++ CallOutcome.err ("boom").data :: [])).outcome =
          Except.error
            { failedAtIndex := 1, rolledBackCount := 1,
              rollbackFailures := rollback_failures (fun _ => some ("dfail").data)
                ([Transaction.mk (some ("11").data) []].map (fun t => t.id.getD [])),
              cause := ("boom").data }
      ∧ (∀ x, x ∈ rollback_failures (fun _ => some ("dfail").data)
            ([Transaction.mk (some ("11").data) []].map (fun t => t.id.getD [])) ↔
          ∃ i ∈ [Transaction.mk (some ("11").data) []].map (fun t => t.id.getD []),
            ∃ m, (fun _ : List Char => some ("dfail").data) i = some m ∧
              x = i ++ (": ").data ++ m)) := by
  have hhyp : ∀ t ∈ [Transaction.mk (some ("11").data) []],
      ∃ s, t.id = some s ∧ s.isEmpty = false := by
    intro t ht
    rcases List.mem_cons.mp ht with hEq | ht'
    · subst hEq
      exact ⟨("11").data, rfl, rfl⟩
    · cases ht'
  exact ⟨hhyp, claim_C1.1 (fun _ => some ("dfail").data)
    [Transaction.mk (some ("11").data) []] ("boom").data [] hhyp⟩

/-- C10: during atomic-mode rollback, the deletes issued are exactly the
recorded ids (`transaction_ids`) of the transactions created before the
failure — only results carrying a non-null (and non-empty) id are deleted,
a null-id result never is; the failure index and rolled-back count in the
raised error both equal the number of recorded ids, which is at most the
failing position and equals it only when every previously created
transaction had an id. -/
theorem claim_C10 :
    ∀ (dO : List Char → Option (List Char)) (ts : List Transaction)
      (e : List Char) (rest : List CallOutcome),
      (create_bulk_atomic dO (ts.map CallOutcome.ok ++ CallOutcome.err e :: rest)).deletes =
          transaction_ids ts
        ∧ (create_bulk_atomic dO
            (ts.map CallOutcome.ok ++ CallOutcome.err e :: rest)).outcome =
            Except.error
              (AtomicCreateError.mk (transaction_ids ts).length (transaction_ids ts).length
                (rollback_failures dO (transaction_ids ts)) e)
        ∧ (∀ s ∈ (create_bulk_atomic dO
            (ts.map CallOutcome.ok ++ CallOutcome.err e :: rest)).deletes,
            ∃ t ∈ ts, t.id = some s ∧ s.isEmpty = false)
        ∧ (transaction_ids ts).length ≤ ts.length
        ∧ ((transaction_ids ts).length = ts.length →
            ∀ t ∈ ts, ∃ s, t.id = some s ∧ s.isEmpty = false) := by
  intro dO ts e rest
  have hgo := atomic_go_err ts dO
    (ts.map CallOutcome.ok ++ CallOutcome.err e :: rest).length [] [] e rest
  rw [show create_bulk_atomic dO (ts.map CallOutcome.ok ++ CallOutcome.err e :: rest) =
    create_bulk_atomic_go dO (ts.map CallOutcome.ok ++ CallOutcome.err e :: rest).length
      [] [] (ts.map CallOutcome.ok ++ CallOutcome.err e :: rest) from rfl, hgo]
  refine ⟨by simp, by simp, ?_, transaction_ids_length_le ts, transaction_ids_length_eq ts⟩
  intro s hs
  simp only [List.nil_append] at hs
  exact mem_transaction_ids ts s hs

/-- Witness for C10 at a concrete input: one created transaction with id
`21`, then a failing create. -/
theorem claim_C10_witness :
    ((transaction_ids [Transaction.mk (some ("21").data) []]).length =
      ([Transaction.mk (some ("21").data) []] : List Transaction).length)
    ∧ (create_bulk_atomic (fun _ => none)
        ([Transaction.mk (some ("21").data) []].map CallOutcome.ok
          ++ CallOutcome.err ("boom").data :: [])).deletes =
        transaction_ids [Transaction.mk (some ("21").data) []]
    ∧ (∀ t ∈ [Transaction.mk (some ("21").data) []],
        ∃ s, t.id = some s ∧ s.isEmpty = false) := by
  refine ⟨by decide, ?_, ?_⟩
  · exact (claim_C10 (fun _ => none) [Transaction.mk (some ("21").data) []]
      ("boom").data []).1
  · exact (claim_C10 (fun _ => none) [Transaction.mk (some ("21").data) []]
      ("boom").data []).2.2.2.2 (by decide)

/-- C4: a non-atomic bulk create with at least one success returns (without
raising) the `BulkCreateResult` whose `successful`/`failed` lists are the
ok results and the indexed error entries in input order, with
`total_succeeded = k`, `total_failed = n - k` (their lengths sum to `n`),
and each failure recorded as an `{index, error}` entry at the position of
the failing create; when every create fails (`k = 0`) it raises instead. -/
theorem claim_C4 :
    ∀ outcomes : List CallOutcome,
      (0 < (ok_results outcomes).length →
        create_bulk_non_atomic outcomes =
            Except.ok
              (BulkCreateResult.mk (ok_results outcomes) (err_entries 0 outcomes)
                outcomes.length (ok_results outcomes).length (err_entries 0 outcomes).length)
          ∧ (ok_results outcomes).length + (err_entries 0 outcomes).length = outcomes.length
          ∧ (∀ er ∈ err_entries 0 outcomes, ∃ j m,
              outcomes[j]? = some (CallOutcome.err m) ∧
                er = BulkOperationError.mk (some j) none m))
      ∧ ((ok_results outcomes).length = 0 →
          create_bulk_non_atomic outcomes =
            Except.error (AllFailedCreateError.mk outcomes.length)) := by
  intro outcomes
  have hspec := create_bulk_non_atomic_go_spec outcomes 0 [] []
  have hlen := ok_err_length outcomes 0
  constructor
  · intro hk
    have hne : (err_entries 0 outcomes).length ≠ outcomes.length := by omega
    refine ⟨?_, hlen, ?_⟩
    · simp only [create_bulk_non_atomic, hspec, List.nil_append]
      rw [if_neg hne]
    · intro er her
      obtain ⟨j, m, hj, he⟩ := (mem_err_entries outcomes 0 er).mp her
      refine ⟨j, m, hj, ?_⟩
      simpa using he
  · intro hk
    have heq : (err_entries 0 outcomes).length = outcomes.length := by omega
    simp only [create_bulk_non_atomic, hspec, List.nil_append]
    rw [if_pos heq]

/-- Witness for C4: a two-element non-atomic bulk create with one success
and one failure, and a one-element one where everything fails. -/
theorem claim_C4_witness :
    (0 < (ok_results [CallOutcome.ok { id := some ("1").data },
        CallOutcome.err ("bad").data]).length)
    ∧ create_bulk_non_atomic
        [CallOutcome.ok { id := some ("1").data }, CallOutcome.err ("bad").data] =
        Except.ok
          (BulkCreateResult.mk [{ id := some ("1").data }]
            [BulkOperationError.mk (some 1) none (("bad").data)] 2 1 1)
    ∧ ((ok_results [CallOutcome.err ("bad").data]).length = 0)
    ∧ create_bulk_non_atomic [CallOutcome.err ("bad").data] =
        Except.error (AllFailedCreateError.mk 1) := by
  refine ⟨by decide, ?_, by decide, ?_⟩
  · exact ((claim_C4 [CallOutcome.ok { id := some ("1").data },
      CallOutcome.err ("bad").data]).1 (by decide)).1
  · exact (claim_C4 [CallOutcome.err ("bad").data]).2 (by decide)

/-- C5: `bulk_update_transactions` issues exactly one update call per item,
in input order, never abandoning the remaining items after a failure (the
calls list always equals the full id list); each failure is recorded as a
`{transaction_id, error}` entry and iteration continues; it raises exactly
when every update fails, and otherwise returns the partitioned
`BulkUpdateResult`. -/
theorem claim_C5 :
    ∀ items : List UpdateItem,
      (bulk_update_transactions items).calls = items.map UpdateItem.transaction_id
      ∧ ((bulk_update_transactions items).result =
            Except.error (AllFailedUpdateError.mk items.length) ↔
          ∀ item ∈ items, ∃ m, item.outcome = CallOutcome.err m)
      ∧ (∀ r, (bulk_update_transactions items).result = Except.ok r →
          r.successful = update_ok_results items
          ∧ r.failed = update_err_entries 0 items
          ∧ r.total_succeeded + r.total_failed = r.total_requested
          ∧ r.total_requested = items.length) := by
  intro items
  have hspec := bulk_update_go_spec items 0 [] [] []
  have hlen := update_ok_err_length items 0
  have hfull := update_err_full_iff items 0
  refine ⟨?_, ?_, ?_⟩
  · simp only [bulk_update_transactions, hspec, List.nil_append]
  · by_cases hcond : (update_err_entries 0 items).length = items.length
    · simp only [bulk_update_transactions, hspec, List.nil_append, if_pos hcond]
      exact ⟨fun _ => hfull.mp hcond, fun _ => by trivial⟩
    · simp only [bulk_update_transactions, hspec, List.nil_append, if_neg hcond]
      constructor
      · intro h
        exact absurd h (by simp)
      · intro hall
        exact absurd (hfull.mpr hall) hcond
  · intro r hr
    by_cases hcond : (update_err_entries 0 items).length = items.length
    · simp only [bulk_update_transactions, hspec, List.nil_append, if_pos hcond] at hr
      exact absurd hr (by simp)
    · simp only [bulk_update_transactions, hspec, List.nil_append, if_neg hcond] at hr
      injection hr with hr
      subst hr
      exact ⟨rfl, rfl, hlen, rfl⟩

/-- Witness for C5: a bulk update where the first item succeeds and the
second fails — both calls are issued, the result partitions the items, and
the all-failed characterization is exercised on a failing singleton. -/
theorem claim_C5_witness :
    ((bulk_update_transactions
        [UpdateItem.mk ("7").data (CallOutcome.ok { id := some ("7").data }),
         UpdateItem.mk ("8").data (CallOutcome.err ("nope").data)]).result =
      Except.ok
        (BulkUpdateResult.mk [{ id := some ("7").data }]
          [BulkOperationError.mk (some 1) (some (("8").data)) (("nope").data)] 2 1 1))
    ∧ ((bulk_update_transactions
          [UpdateItem.mk ("7").data (CallOutcome.ok { id := some ("7").data }),
           UpdateItem.mk ("8").data (CallOutcome.err ("nope").data)]).result =
            Except.ok
              (BulkUpdateResult.mk [{ id := some ("7").data }]
                [BulkOperationError.mk (some 1) (some (("8").data)) (("nope").data)] 2 1 1) →
        (BulkUpdateResult.mk [({ id := some ("7").data } : Transaction)]
          [BulkOperationError.mk (some 1) (some (("8").data)) (("nope").data)] 2 1
            1).total_succeeded +
          (BulkUpdateResult.mk [({ id := some ("7").data } : Transaction)]
            [BulkOperationError.mk (some 1) (some (("8").data)) (("nope").data)] 2 1
              1).total_failed =
          (BulkUpdateResult.mk [({ id := some ("7").data } : Transaction)]
            [BulkOperationError.mk (some 1) (some (("8").data)) (("nope").data)] 2 1
              1).total_requested)
    ∧ (∀ item ∈ [UpdateItem.mk ("9").data (CallOutcome.err ("nope").data)],
        ∃ m, item.outcome = CallOutcome.err m)
    ∧ (bulk_update_transactions
        [UpdateItem.mk ("9").data (CallOutcome.err ("nope").data)]).result =
        Except.error (AllFailedUpdateError.mk 1) := by
  have hok : (bulk_update_transactions
      [UpdateItem.mk ("7").data (CallOutcome.ok { id := some ("7").data }),
       UpdateItem.mk ("8").data (CallOutcome.err ("nope").data)]).result =
      Except.ok
        (BulkUpdateResult.mk [{ id := some ("7").data }]
          [BulkOperationError.mk (some 1) (some (("8").data)) (("nope").data)] 2 1 1) := rfl
  have hall : ∀ item ∈ [UpdateItem.mk ("9").data (CallOutcome.err ("nope").data)],
      ∃ m, item.outcome = CallOutcome.err m := by
    intro item hitem
    rcases List.mem_cons.mp hitem with hEq | h
    · subst hEq
      exact ⟨("nope").data, rfl⟩
    · cases h
  refine ⟨hok, ?_, hall, ?_⟩
  · intro h
    exact ((claim_C5 [UpdateItem.mk ("7").data (CallOutcome.ok { id := some ("7").data }),
      UpdateItem.mk ("8").data (CallOutcome.err ("nope").data)]).2.2 _ h).2.2.1
  · exact ((claim_C5 [UpdateItem.mk ("9").data (CallOutcome.err ("nope").data)]).2.1).mpr hall

/-- C6: every `BulkCreateResult`/`BulkUpdateResult` actually returned by a
bulk operation (atomic create, non-atomic create, bulk update) satisfies
`total_succeeded + total_failed = total_requested` with `total_requested`
equal to the input length, `successful`/`failed` list lengths matching the
counters, and — for the partitioning paths — the `successful` and `failed`
lists being exactly the ok results and the index-keyed error entries of the
input, in order. -/
theorem claim_C6 :
    (∀ (dO : List Char → Option (List Char)) (outcomes : List CallOutcome)
        (r : BulkCreateResult),
      (create_bulk_atomic dO outcomes).outcome = Except.ok r →
        r.total_succeeded + r.total_failed = r.total_requested
        ∧ r.total_requested = outcomes.length
        ∧ r.successful.length = r.total_succeeded
        ∧ r.failed.length = r.total_failed)
    ∧ (∀ (outcomes : List CallOutcome) (r : BulkCreateResult),
        create_bulk_non_atomic outcomes = Except.ok r →
          r.total_succeeded + r.total_failed = r.total_requested
          ∧ r.total_requested = outcomes.length
          ∧ r.successful.length = r.total_succeeded
          ∧ r.failed.length = r.total_failed
          ∧ r.successful = ok_results outcomes
          ∧ r.failed = err_entries 0 outcomes)
    ∧ (∀ (items : List UpdateItem) (r : BulkUpdateResult),
        (bulk_update_transactions items).result = Except.ok r →
          r.total_succeeded + r.total_failed = r.total_requested
          ∧ r.total_requested = items.length
          ∧ r.successful.length = r.total_succeeded
          ∧ r.failed.length = r.total_failed
          ∧ r.successful = update_ok_results items
          ∧ r.failed = update_err_entries 0 items) := by
  refine ⟨?_, ?_, ?_⟩
  · intro dO outcomes r hr
    obtain ⟨h1, h2, h3, h4, h5, h6⟩ :=
      atomic_go_ok_inv outcomes dO outcomes.length [] [] r hr
    refine ⟨?_, h3, h4.symm, ?_⟩
    · rw [h4, h5, h3, h1]
      simpa using h6
    · rw [h2, h5]
      rfl
  · intro outcomes r hr
    have hspec := create_bulk_non_atomic_go_spec outcomes 0 [] []
    have hlen := ok_err_length outcomes 0
    by_cases hcond : (err_entries 0 outcomes).length = outcomes.length
    · simp only [create_bulk_non_atomic, hspec, List.nil_append, if_pos hcond] at hr
      exact absurd hr (by simp)
    · simp only [create_bulk_non_atomic, hspec, List.nil_append, if_neg hcond] at hr
      injection hr with hr
      subst hr
      exact ⟨hlen, rfl, rfl, rfl, rfl, rfl⟩
  · intro items r hr
    have hspec := bulk_update_go_spec items 0 [] [] []
    have hlen := update_ok_err_length items 0
    by_cases hcond : (update_err_entries 0 items).length = items.length
    · simp only [bulk_update_transactions, hspec, List.nil_append, if_pos hcond] at hr
      exact absurd hr (by simp)
    · simp only [bulk_update_transactions, hspec, List.nil_append, if_neg hcond] at hr
      injection hr with hr
      subst hr
      exact ⟨hlen, rfl, rfl, rfl, rfl, rfl⟩

/-- Witness for C6: concrete results of all three bulk operations. -/
theorem claim_C6_witness :
    ((create_bulk_atomic (fun _ => none)
        [CallOutcome.ok { id := some ("1").data }]).outcome =
      Except.ok (BulkCreateResult.mk [{ id := some ("1").data }] [] 1 1 0))
    ∧ (BulkCreateResult.mk [({ id := some ("1").data } : Transaction)] [] 1 1
        0).total_succeeded +
        (BulkCreateResult.mk [({ id := some ("1").data } : Transaction)] [] 1 1
          0).total_failed =
        (BulkCreateResult.mk [({ id := some ("1").data } : Transaction)] [] 1 1
          0).total_requested
    ∧ (create_bulk_non_atomic
        [CallOutcome.ok { id := some ("1").data }, CallOutcome.err ("bad").data] =
      Except.ok
        (BulkCreateResult.mk [{ id := some ("1").data }]
          [BulkOperationError.mk (some 1) none (("bad").data)] 2 1 1))
    ∧ (BulkCreateResult.mk [({ id := some ("1").data } : Transaction)]
        [BulkOperationError.mk (some 1) none (("bad").data)] 2 1 1).total_succeeded +
        (BulkCreateResult.mk [({ id := some ("1").data } : Transaction)]
          [BulkOperationError.mk (some 1) none (("bad").data)] 2 1 1).total_failed =
        (BulkCreateResult.mk [({ id := some ("1").data } : Transaction)]
          [BulkOperationError.mk (some 1) none (("bad").data)] 2 1 1).total_requested := by
  have h1 : (create_bulk_atomic (fun _ => none)
      [CallOutcome.ok { id := some ("1").data }]).outcome =
      Except.ok (BulkCreateResult.mk [{ id := some ("1").data }] [] 1 1 0) := rfl
  have h2 : create_bulk_non_atomic
      [CallOutcome.ok { id := some ("1").data }, CallOutcome.err ("bad").data] =
      Except.ok
        (BulkCreateResult.mk [{ id := some ("1").data }]
          [BulkOperationError.mk (some 1) none (("bad").data)] 2 1 1) := rfl
  refine ⟨h1, ?_, h2, ?_⟩
  · exact (claim_C6.1 (fun _ => none) [CallOutcome.ok { id := some ("1").data }] _ h1).1
  · exact (claim_C6.2.1
      [CallOutcome.ok { id := some ("1").data }, CallOutcome.err ("bad").data] _ h2).1

/-- C8: `CreateBulkTransactionsRequest` holds an ordered list of 1 to 100
transactions (construction rejects an empty list and one longer than 100)
and a boolean `atomic` flag defaulting to `true`; `create_bulk_transactions`
dispatches on the flag — the compensating-delete atomic path when `true`,
the partial-failure path when `false`. -/
theorem claim_C8 :
    (∀ ts : List CallOutcome,
      ({ transactions := ts } : CreateBulkTransactionsRequest).atomic = true)
    ∧ (∀ req : CreateBulkTransactionsRequest,
        valid_create_bulk_request req = true ↔
          1 ≤ req.transactions.length ∧ req.transactions.length ≤ 100)
    ∧ (∀ (dO : List Char → Option (List Char)) (ts : List CallOutcome),
        (create_bulk_transactions dO (CreateBulkTransactionsRequest.mk ts true)).deletes =
          (create_bulk_atomic dO ts).deletes
        ∧ (∀ r, (create_bulk_transactions dO
              (CreateBulkTransactionsRequest.mk ts true)).result = Except.ok r ↔
            (create_bulk_atomic dO ts).outcome = Except.ok r)
        ∧ (create_bulk_transactions dO (CreateBulkTransactionsRequest.mk ts false)).deletes = []
        ∧ (∀ r, (create_bulk_transactions dO
              (CreateBulkTransactionsRequest.mk ts false)).result = Except.ok r ↔
            create_bulk_non_atomic ts = Except.ok r)) := by
  refine ⟨fun ts => rfl, ?_, ?_⟩
  · intro req
    simp [valid_create_bulk_request]
  · intro dO ts
    refine ⟨rfl, ?_, rfl, ?_⟩
    · intro r
      simp only [create_bulk_transactions, if_true]
      cases houtcome : (create_bulk_atomic dO ts).outcome with
      | ok r' => simp [houtcome]
      | error e => simp [houtcome]
    · intro r
      simp only [create_bulk_transactions, if_false, Bool.false_eq_true]
      cases houtcome : create_bulk_non_atomic ts with
      | ok r' => simp [houtcome]
      | error e => simp [houtcome]

theorem bulk_update_result_ok_failed (items : List UpdateItem) (r : BulkUpdateResult) :
    (bulk_update_transactions items).result = Except.ok r →
      r.failed = update_err_entries 0 items := by
  intro hr
  have hspec := bulk_update_go_spec items 0 [] [] []
  by_cases hcond : (update_err_entries 0 items).length = items.length
  · simp only [bulk_update_transactions, hspec, List.nil_append, if_pos hcond] at hr
    exact absurd hr (by simp)
  · simp only [bulk_update_transactions, hspec, List.nil_append, if_neg hcond] at hr
    injection hr with hr
    subst hr
    rfl

theorem create_bulk_non_atomic_ok_failed (outcomes : List CallOutcome) (r : BulkCreateResult) :
    create_bulk_non_atomic outcomes = Except.ok r →
      r.failed = err_entries 0 outcomes := by
  intro hr
  have hspec := create_bulk_non_atomic_go_spec outcomes 0 [] []
  by_cases hcond : (err_entries 0 outcomes).length = outcomes.length
  · simp only [create_bulk_non_atomic, hspec, List.nil_append, if_pos hcond] at hr
    exact absurd hr (by simp)
  · simp only [create_bulk_non_atomic, hspec, List.nil_append, if_neg hcond] at hr
    injection hr with hr
    subst hr
    rfl

/-- C9 counterexample: a bulk update whose second item fails returns a
result whose failure entry carries `index = some 1` — the index field is
not absent for update errors, contradicting the claim. -/
theorem claim_C9_counterexample :
    (bulk_update_transactions
        [UpdateItem.mk ("7").data (CallOutcome.ok { id := some ("7").data }),
         UpdateItem.mk ("8").data (CallOutcome.err ("nope").data)]).result =
      Except.ok
        (BulkUpdateResult.mk [{ id := some ("7").data }]
          [BulkOperationError.mk (some 1) (some (("8").data)) (("nope").data)] 2 1 1)
    ∧ (BulkOperationError.mk (some 1) (some (("8").data)) (("nope").data)).index ≠ none := by
  exact ⟨rfl, by decide⟩

/-- C9 (amended): a `BulkOperationError` produced for a failed bulk-update
item carries the zero-based index *and* the transaction id along with the
error message (the source passes `index=idx` for update errors too); only
bulk-create errors omit the transaction id while carrying the index. -/
theorem claim_C9 :
    (∀ (items : List UpdateItem) (r : BulkUpdateResult),
      (bulk_update_transactions items).result = Except.ok r →
        ∀ e ∈ r.failed, (∃ j, e.index = some j) ∧ ∃ s, e.transaction_id = some s)
    ∧ (∀ (outcomes : List CallOutcome) (r : BulkCreateResult),
        create_bulk_non_atomic outcomes = Except.ok r →
          ∀ e ∈ r.failed, (∃ j, e.index = some j) ∧ e.transaction_id = none) := by
  constructor
  · intro items r hr e he
    rw [bulk_update_result_ok_failed items r hr] at he
    exact mem_update_err_entries_fields items 0 e he
  · intro outcomes r hr e he
    rw [create_bulk_non_atomic_ok_failed outcomes r hr] at he
    obtain ⟨j, m, hj, hEq⟩ := (mem_err_entries outcomes 0 e).mp he
    subst hEq
    exact ⟨⟨0 + j, rfl⟩, rfl⟩

/-- Witness for C9 at concrete bulk update and bulk create results. -/
theorem claim_C9_witness :
    ((bulk_update_transactions
        [UpdateItem.mk ("5").data (CallOutcome.ok { id := some ("5").data }),
         UpdateItem.mk ("6").data (CallOutcome.err ("bad").data)]).result =
      Except.ok
        (BulkUpdateResult.mk [{ id := some ("5").data }]
          [BulkOperationError.mk (some 1) (some (("6").data)) (("bad").data)] 2 1 1))
    ∧ (∀ e ∈ (BulkUpdateResult.mk [({ id := some ("5").data } : Transaction)]
          [BulkOperationError.mk (some 1) (some (("6").data)) (("bad").data)] 2 1 1).failed,
        (∃ j, e.index = some j) ∧ ∃ s, e.transaction_id = some s)
    ∧ (create_bulk_non_atomic
        [CallOutcome.ok { id := some ("5").data }, CallOutcome.err ("bad").data] =
      Except.ok
        (BulkCreateResult.mk [{ id := some ("5").data }]
          [BulkOperationError.mk (some 1) none (("bad").data)] 2 1 1))
    ∧ (∀ e ∈ (BulkCreateResult.mk [({ id := some ("5").data } : Transaction)]
          [BulkOperationError.mk (some 1) none (("bad").data)] 2 1 1).failed,
        (∃ j, e.index = some j) ∧ e.transaction_id = none) := by
  have h1 : (bulk_update_transactions
      [UpdateItem.mk ("5").data (CallOutcome.ok { id := some ("5").data }),
       UpdateItem.mk ("6").data (CallOutcome.err ("bad").data)]).result =
      Except.ok
        (BulkUpdateResult.mk [{ id := some ("5").data }]
          [BulkOperationError.mk (some 1) (some (("6").data)) (("bad").data)] 2 1 1) := rfl
  have h2 : create_bulk_non_atomic
      [CallOutcome.ok { id := some ("5").data }, CallOutcome.err ("bad").data] =
      Except.ok
        (BulkCreateResult.mk [{ id := some ("5").data }]
          [BulkOperationError.mk (some 1) none (("bad").data)] 2 1 1) := rfl
  exact ⟨h1, claim_C9.1 _ _ h1, h2, claim_C9.2 _ _ h2⟩

/-- Witness for C7 at a concrete request: a query-only request with default
pagination validates. -/
theorem claim_C7_witness :
    valid_search_request
      (SearchTransactionsRequest.mk (some (("x").data)) none none none none none none none
        none none none none none (some 1) (some 50)) = true := by
  refine (claim_C7 _).mpr ⟨Or.inl rfl, ?_, ?_⟩
  · intro p hp
    injection hp with h
    subst h
    decide
  · intro l hl
    injection hl with h
    subst h
    exact ⟨by decide, by decide⟩

/-- Witness for C8 at a concrete request: a singleton transaction list is
within bounds and validates. -/
theorem claim_C8_witness :
    (1 ≤ ([CallOutcome.err ("x").data] : List CallOutcome).length
      ∧ ([CallOutcome.err ("x").data] : List CallOutcome).length ≤ 100)
    ∧ valid_create_bulk_request
        (CreateBulkTransactionsRequest.mk [CallOutcome.err ("x").data] true) = true := by
  refine ⟨by decide, ?_⟩
  exact (claim_C8.2.1
    (CreateBulkTransactionsRequest.mk [CallOutcome.err ("x").data] true)).mpr (by decide)

end LamPyrid
